import Mathlib

/-!
# Verification of the acr122u polling engine and dispatch loop

Shallow embedding of the acr122u library (`context.go`, `errors.go`):
the reader-state polling engine (`read`, `waitForStatusChange`,
`readCardData`) and the dispatch loop of `Serve`.

The scard middleware is external; its behaviour along one run is supplied
as a script of call outcomes (`WaitStep` for each `GetStatusChange` call,
`CardEnv` for each `readCardData` invocation), consumed in program order.
The embedded functions mirror the Go control flow over these scripts and
additionally record a ghost trace of middleware operations and emitted
records, so that ordering and resource-discipline properties can be stated.
-/

namespace Acr122u

/-! ## State flags (scard package constants, as used by the library) -/

def stateUnaware : Nat := 0
def stateIgnore : Nat := 1
def stateChanged : Nat := 2
def stateUnknown : Nat := 4
def stateUnavailable : Nat := 8
def stateEmpty : Nat := 16
def statePresent : Nat := 32
def stateAtrmatch : Nat := 64
def stateExclusive : Nat := 128
def stateInuse : Nat := 256
def stateMute : Nat := 512
def stateUnpowered : Nat := 1024

/-! ## Errors -/

/-- Error values of the scard middleware that the library distinguishes,
plus further distinct scard error codes (`removedCard`, `unknownError`) and
a catch-all for the remaining codes.  The middleware is external: any of
these may come back from `Connect` or `GetStatusChange`. -/
inductive ScardErr where
  | timeout
  | noSmartcard
  | unpoweredCard
  | removedCard
  | unknownError
  | otherCode (code : Nat)
deriving DecidableEq, Repr

/-- Result of `wrapError` in `errors.go`: the message is prepended but the
wrapped base error stays visible to `errors.Is`. -/
structure WrappedError where
  message : String
  base : ScardErr
deriving DecidableEq, Repr

/-- `wrapError` from `errors.go`: wraps `err` with a message, preserving the
original error for `errors.Is` via the `%w` verb. -/
def wrapError (message : String) (err : ScardErr) : WrappedError :=
  ⟨message, err⟩

/-- `errors.Is` on a `wrapError` result: matches the wrapped base error. -/
def errorsIs (err : WrappedError) (target : ScardErr) : Bool :=
  err.base == target

/-- The sentinel errors of `errors.go`. -/
inductive LibErr where
  | operationFailed
  | shutdown
  | unhandledCardData
deriving DecidableEq, Repr

/-- A Go error value as it flows through `readCardData`: either a raw scard
error (from `getUID`), a `wrapError` result (from the connect path), or a
library sentinel. -/
inductive GoErr where
  | scard (e : ScardErr)
  | wrapped (w : WrappedError)
  | lib (e : LibErr)
deriving DecidableEq, Repr

/-! ## Data model -/

/-- Modelled from the spec: the Card Session (`card` struct, not under
`src/`): the reader name it was opened against and the card's unique
identifier byte sequence.  The native connection handle is left to the
environment script. -/
structure Card where
  reader : String
  uid : List Nat
deriving DecidableEq, Repr

/-- The dynamic value stored in a record's `UserData` slot (`interface{}`
in Go): the nil interface, a `*card` pointer (itself possibly nil, as in
the benign absence case), or a value of any other dynamic type.  Only
`cardPtr` matches the `case *card:` arm of the type switch in `Serve`;
both `empty` and `otherData` fall to the `default:` arm. -/
inductive UserData where
  | empty
  | cardPtr (c : Option Card)
  | otherData
deriving DecidableEq, Repr

/-- `scard.ReaderState`: one per reader; `read` mutates these in place. -/
structure ReaderState where
  reader : String
  currentState : Nat
  eventState : Nat
  userData : UserData
deriving DecidableEq, Repr

/-- The `Context` fields that the modelled logic reads. -/
structure Context where
  readers : List String
  shareMode : Nat
  protocol : Nat
deriving DecidableEq, Repr

/-- `initializeReaderState`: one zero-valued record per reader, with the
reader name filled in and `CurrentState` set to `StateUnaware`. -/
def initializeReaderState (actx : Context) : List ReaderState :=
  actx.readers.map fun r => ⟨r, stateUnaware, 0, .empty⟩

/-! ## Middleware scripts -/

instance {ε α : Type} [DecidableEq ε] [DecidableEq α] :
    DecidableEq (Except ε α) := fun a b =>
  match a, b with
  | .ok x, .ok y => decidable_of_iff (x = y) (by simp)
  | .error x, .error y => decidable_of_iff (x = y) (by simp)
  | .ok _, .error _ => isFalse (by simp)
  | .error _, .ok _ => isFalse (by simp)

/-- Outcome of one `GetStatusChange` call: on success the event states it
writes into the reader-state array (one per reader, in order); on failure
the array is untouched.  `doneAfter` is whether the cancellation context is
observed as done at the `select` check immediately following this call. -/
structure WaitStep where
  gsc : Except ScardErr (List Nat)
  doneAfter : Bool
deriving DecidableEq, Repr

/-- Outcomes of the middleware calls made by one `readCardData` invocation:
the `Connect` result, the `getUID` result, and whether the deferred
`Disconnect` fails (its error is only logged). -/
structure CardEnv where
  connect : Except ScardErr Unit
  uid : Except GoErr (List Nat)
  disconnectFails : Bool
deriving DecidableEq, Repr

/-- How `GetStatusChange` writes event states into the array: the i-th
event state into the i-th record, all other fields untouched. -/
def setEvents : List ReaderState → List Nat → List ReaderState
  | [], _ => []
  | rs, [] => rs
  | r :: rs, e :: es => { r with eventState := e } :: setEvents rs es

/-- How a call to `waitForStatusChange` ended.  `scriptEnd` is a model
artifact: the supplied script ran out before the loop returned. -/
inductive WaitExit where
  | ok
  | shutdown
  | fatal (e : WrappedError)
  | scriptEnd
deriving DecidableEq, Repr

/-- `waitForStatusChange`: loop calling `GetStatusChange`, check the
cancellation context right after each call (returning `ErrShutdown` even
when the call succeeded), return on success, swallow timeout errors and
retry, return any other error wrapped.  Results: the updated reader
states, the exit, and the number of `GetStatusChange` calls made. -/
def waitForStatusChange (rs : List ReaderState) :
    List WaitStep → List ReaderState × WaitExit × Nat
  | [] => (rs, .scriptEnd, 0)
  | step :: rest =>
    let rs' := match step.gsc with
      | .ok evs => setEvents rs evs
      | .error _ => rs
    if step.doneAfter then
      (rs', .shutdown, 1)
    else
      match step.gsc with
      | .ok _ => (rs', .ok, 1)
      | .error e =>
        let werr := wrapError "error waiting for status change" e
        if errorsIs werr ScardErr.timeout then
          let (rs'', exit, n) := waitForStatusChange rs' rest
          (rs'', exit, n + 1)
        else
          (rs', .fatal werr, 1)

/-! ## Card session lifecycle -/

/-- Ghost trace entry: a middleware operation performed by the engine, or a
record sent on the output channel. -/
inductive Ev where
  | connect (reader : String)
  | getUID (reader : String)
  | disconnect (reader : String)
  | emit (rec : ReaderState)
deriving DecidableEq, Repr

/-- `readCardData`: connect to the reader; a connect failure matching
`ErrNoSmartcard` or `ErrUnpoweredCard` yields `(nil, nil)`, any other
connect failure yields the wrapped error; on connect success a deferred
disconnect is installed (it runs on every exit path, its own failure only
logged), then `getUID` fills the card's uid, whose error is returned as-is.
Returns the middleware operations performed, in order, plus the Go
function's `(*card, error)` result. -/
def readCardData (env : CardEnv) (state : ReaderState) :
    List Ev × Except GoErr (Option Card) :=
  match env.connect with
  | .error e =>
    let e2 := wrapError "readCardData connect error" e
    if errorsIs e2 ScardErr.noSmartcard then
      ([.connect state.reader], .ok none)
    else if errorsIs e2 ScardErr.unpoweredCard then
      ([.connect state.reader], .ok none)
    else
      ([.connect state.reader], .error (.wrapped e2))
  | .ok _ =>
    match env.uid with
    | .error e =>
      ([.connect state.reader, .getUID state.reader, .disconnect state.reader],
       .error e)
    | .ok uid =>
      ([.connect state.reader, .getUID state.reader, .disconnect state.reader],
       .ok (some ⟨state.reader, uid⟩))

/-! ## Polling engine -/

/-- How the per-reader processing loop in `read` ended. -/
inductive ProcExit where
  | ok
  | fatal (e : GoErr)
  | scriptEnd
deriving DecidableEq, Repr

/-- Body of the `for i := range rs` loop in `read`, for one reader record:
if the event state differs from the current state, and the event state has
the present flag, run `readCardData` storing its card into `UserData`
(aborting the goroutine on error); then send a copy of the record and reset
`CurrentState := EventState`, `UserData := nil`.  Returns the ghost trace,
the updated record, the unconsumed card scripts, and the exit. -/
def processOne (r : ReaderState) (envs : List CardEnv) :
    List Ev × ReaderState × List CardEnv × ProcExit :=
  if r.eventState = r.currentState then
    ([], r, envs, .ok)
  else if r.eventState &&& statePresent ≠ 0 then
    match envs with
    | [] => ([], r, [], .scriptEnd)
    | env :: rest =>
      let (tr, res) := readCardData env r
      match res with
      | .error e => (tr, { r with userData := .cardPtr none }, rest, .fatal e)
      | .ok c =>
        let r' := { r with userData := .cardPtr c }
        (tr ++ [.emit r'],
         { r' with currentState := r'.eventState, userData := .empty },
         rest, .ok)
  else
    ([.emit r],
     { r with currentState := r.eventState, userData := .empty },
     envs, .ok)

/-- The whole `for i := range rs` loop: process the records in table order,
stopping at the first fatal error. -/
def processReaders : List ReaderState → List CardEnv →
    List Ev × List ReaderState × List CardEnv × ProcExit
  | [], envs => ([], [], envs, .ok)
  | r :: rest, envs =>
    match processOne r envs with
    | (tr, r', envs', .ok) =>
      let (tr2, rest', envs'', exit) := processReaders rest envs'
      (tr ++ tr2, r' :: rest', envs'', exit)
    | (tr, r', envs', exit) => (tr, r' :: rest, envs', exit)

/-- Script for one iteration of the outer loop of `read`: the cancellation
check at the top, the `GetStatusChange` outcomes consumed by this
iteration's `waitForStatusChange` call, and the `readCardData` scripts
consumed by this iteration's per-reader loop. -/
structure CycleInput where
  doneAtTop : Bool
  waitSteps : List WaitStep
  cardEnvs : List CardEnv
deriving DecidableEq, Repr

/-- Why the `read` goroutine returned (ghost refinement of the Go code's
bare `return`s).  `scriptEnd` is the model artifact for an exhausted
script. -/
inductive EngineExit where
  | canceled
  | waitShutdown
  | waitFatal (e : WrappedError)
  | readFatal (e : GoErr)
  | scriptEnd
deriving DecidableEq, Repr

/-- Everything observable about one terminated run of the `read` goroutine:
the ghost trace (middleware operations and records sent, in order), the
exit, the final reader-state array, a snapshot of the array at the entry of
each `waitForStatusChange` call, and the total number of `GetStatusChange`
calls made. -/
structure ReadOut where
  events : List Ev
  exit : EngineExit
  finalRs : List ReaderState
  waitEntries : List (List ReaderState)
  gscCalls : Nat
deriving DecidableEq, Repr

/-- The `read` goroutine: forever — check cancellation at the top of the
loop; block in `waitForStatusChange` (one-second interrupt quantum);
return on any wait error; otherwise run the per-reader loop, returning on
any `readCardData` error.  The output channel is closed when the function
returns, which ends the range loop in `Serve`. -/
def read : List CycleInput → List ReaderState → ReadOut
  | [], rs => ⟨[], .scriptEnd, rs, [], 0⟩
  | cyc :: rest, rs =>
    if cyc.doneAtTop then
      ⟨[], .canceled, rs, [], 0⟩
    else
      match waitForStatusChange rs cyc.waitSteps with
      | (rs1, .shutdown, n) => ⟨[], .waitShutdown, rs1, [rs], n⟩
      | (rs1, .fatal w, n) => ⟨[], .waitFatal w, rs1, [rs], n⟩
      | (rs1, .scriptEnd, n) => ⟨[], .scriptEnd, rs1, [rs], n⟩
      | (rs1, .ok, n) =>
        match processReaders rs1 cyc.cardEnvs with
        | (tr, rs2, _, .fatal e) => ⟨tr, .readFatal e, rs2, [rs], n⟩
        | (tr, rs2, _, .scriptEnd) => ⟨tr, .scriptEnd, rs2, [rs], n⟩
        | (tr, rs2, _, .ok) =>
          let o := read rest rs2
          ⟨tr ++ o.events, o.exit, o.finalRs, rs :: o.waitEntries,
           n + o.gscCalls⟩

/-- The records sent on the output channel, in order, from a ghost trace. -/
def emittedRecords (evs : List Ev) : List ReaderState :=
  evs.filterMap fun e => match e with | .emit r => some r | _ => none

/-! ## Dispatch loop -/

/-- The dispatch loop of `Serve`: drain the channel; for each record whose
event state has the present flag, type-switch on `UserData` — a non-nil
`*card` is handed to the handler, a nil `*card` is skipped, and anything
else (the default arm, reached also by a nil interface) makes `Serve`
return `ErrUnhandledCardData` at once; when the channel closes, return
nil.  Results: the handler invocations in order, and the error `Serve`
returns (`none` = nil). -/
def dispatch : List ReaderState → List Card × Option LibErr
  | [] => ([], none)
  | rec :: rest =>
    if rec.eventState &&& statePresent ≠ 0 then
      match rec.userData with
      | .cardPtr (some c) =>
        let (cs, e) := dispatch rest
        (c :: cs, e)
      | .cardPtr none => dispatch rest
      | _ => ([], some .unhandledCardData)
    else
      dispatch rest

/-- `Serve`: start the `read` goroutine from a fresh
`initializeReaderState` array and run the dispatch loop over the records
it sends.  The goroutine has no error output: `Serve`'s return value comes
from the dispatch loop alone. -/
def serve (actx : Context) (cycles : List CycleInput) :
    List Card × Option LibErr :=
  dispatch (emittedRecords (read cycles (initializeReaderState actx)).events)

/-! ## Derived notions used to state the properties -/

/-- The card the dispatch loop hands to the handler for one drained record,
if any: the record must carry the present flag and a non-nil `*card`. -/
def presCard (rec : ReaderState) : Option Card :=
  if rec.eventState &&& statePresent ≠ 0 then
    match rec.userData with
    | .cardPtr (some c) => some c
    | _ => none
  else none

/-- Every record's transient payload slot holds the nil interface. -/
def allEmpty (rs : List ReaderState) : Prop :=
  ∀ r ∈ rs, r.userData = UserData.empty

instance (rs : List ReaderState) : Decidable (allEmpty rs) :=
  inferInstanceAs (Decidable (∀ r ∈ rs, r.userData = UserData.empty))

/-! ## Concrete fixtures for counterexamples and witnesses -/

def ctxOne : Context := ⟨["R1"], 2, 3⟩

def ctxTwo : Context := ⟨["R1", "R2"], 2, 3⟩

def envOK : CardEnv := ⟨.ok (), .ok [222, 173, 190, 239], false⟩

/-- One cycle whose `GetStatusChange` fails with a non-timeout error. -/
def scriptWaitFatal : List CycleInput :=
  [⟨false, [⟨.error .unknownError, false⟩], []⟩]

/-- One presence transition whose `Connect` fails with `ErrRemovedCard`. -/
def scriptRemoved : List CycleInput :=
  [⟨false, [⟨.ok [statePresent], false⟩], [⟨.error .removedCard, .ok [], false⟩]⟩]

/-- A card is presented, then stays present while the in-use flag turns on. -/
def scriptStillPresent : List CycleInput :=
  [⟨false, [⟨.ok [statePresent], false⟩], [envOK]⟩,
   ⟨false, [⟨.ok [statePresent ||| stateInuse], false⟩], [envOK]⟩]

/-- One presence transition whose `Connect` fails with `ErrNoSmartcard`. -/
def scriptNoCard : List CycleInput :=
  [⟨false, [⟨.ok [statePresent], false⟩], [⟨.error .noSmartcard, .ok [], false⟩]⟩]

/-- Both readers transition to present in the same wait return. -/
def scriptBoth : List CycleInput :=
  [⟨false, [⟨.ok [statePresent, statePresent], false⟩],
    [⟨.ok (), .ok [1], false⟩, ⟨.ok (), .ok [2], false⟩]⟩]

/-! ## Helper lemmas -/

lemma emittedRecords_append (a b : List Ev) :
    emittedRecords (a ++ b) = emittedRecords a ++ emittedRecords b :=
  List.filterMap_append a b _

lemma readCardData_no_emit (env : CardEnv) (r : ReaderState) :
    emittedRecords (readCardData env r).1 = [] := by
  rcases env with ⟨c, u, d⟩
  rcases c with e | u0 <;> rcases u with e' | uid <;>
    simp [readCardData, emittedRecords] <;> split_ifs <;> simp

/-- Shape of `processOne`'s emissions: nothing, or exactly one record that
reproduces the input record's reader and state flags, and carries a
`*card` payload whenever its event state has the present flag. -/
lemma processOne_emit_shape (r : ReaderState) (envs : List CardEnv) :
    emittedRecords (processOne r envs).1 = []
    ∨ ∃ rec, emittedRecords (processOne r envs).1 = [rec]
        ∧ rec.reader = r.reader
        ∧ rec.currentState = r.currentState
        ∧ rec.eventState = r.eventState
        ∧ (rec.eventState &&& statePresent ≠ 0 →
            ∃ c, rec.userData = UserData.cardPtr c) := by
  by_cases h1 : r.eventState = r.currentState
  · left; simp [processOne, h1, emittedRecords]
  · by_cases h2 : r.eventState &&& statePresent ≠ 0
    · cases envs with
      | nil => left; simp [processOne, h1, h2, emittedRecords]
      | cons env rest =>
        rcases hrc : readCardData env r with ⟨tr, res⟩
        cases res with
        | error e =>
          left
          have := readCardData_no_emit env r
          simp [processOne, h1, h2, hrc] at this ⊢
          exact this
        | ok c =>
          right
          refine ⟨{ r with userData := .cardPtr c }, ?_, rfl, rfl, rfl, ?_⟩
          · have h0 := readCardData_no_emit env r
            rw [hrc] at h0
            simp [processOne, h1, h2, hrc, emittedRecords_append,
              emittedRecords] at h0 ⊢
            exact h0
          · intro _; exact ⟨c, rfl⟩
    · right
      refine ⟨r, ?_, rfl, rfl, rfl, ?_⟩
      · simp [processOne, h1, h2, emittedRecords]
      · intro h; exact absurd h h2

lemma processReaders_present_payload :
    ∀ (rs : List ReaderState) (envs : List CardEnv),
      ∀ rec ∈ emittedRecords (processReaders rs envs).1,
        rec.eventState &&& statePresent ≠ 0 →
        ∃ c, rec.userData = UserData.cardPtr c := by
  intro rs
  induction rs with
  | nil => intro envs rec hmem; simp [processReaders, emittedRecords] at hmem
  | cons r rest ih =>
    intro envs rec hmem hpres
    rcases hpo : processOne r envs with ⟨tr, r', envs', ex⟩
    have hhead : ∀ rec ∈ emittedRecords tr,
        rec.eventState &&& statePresent ≠ 0 →
        ∃ c, rec.userData = UserData.cardPtr c := by
      intro rec0 hm0 hp0
      rcases processOne_emit_shape r envs with h | ⟨rec1, he, _, _, _, hpay⟩
      · rw [hpo] at h; simp at h; rw [h] at hm0; simp at hm0
      · rw [hpo] at he; simp at he; rw [he] at hm0
        simp at hm0; subst hm0; exact hpay hp0
    cases ex with
    | ok =>
      rcases hpr : processReaders rest envs' with ⟨tr2, rest', envs'', ex2⟩
      rw [show processReaders (r :: rest) envs
            = (tr ++ tr2, r' :: rest', envs'', ex2) by
          simp [processReaders, hpo, hpr]] at hmem
      simp [emittedRecords_append] at hmem
      rcases hmem with hm | hm
      · exact hhead rec hm hpres
      · have := ih envs' rec (by rw [hpr]; exact hm) hpres
        exact this
    | fatal e =>
      rw [show processReaders (r :: rest) envs = (tr, r' :: rest, envs', .fatal e) by
          simp [processReaders, hpo]] at hmem
      exact hhead rec hmem hpres
    | scriptEnd =>
      rw [show processReaders (r :: rest) envs = (tr, r' :: rest, envs', .scriptEnd) by
          simp [processReaders, hpo]] at hmem
      exact hhead rec hmem hpres

lemma read_present_payload :
    ∀ (cycles : List CycleInput) (rs : List ReaderState),
      ∀ rec ∈ emittedRecords (read cycles rs).events,
        rec.eventState &&& statePresent ≠ 0 →
        ∃ c, rec.userData = UserData.cardPtr c := by
  intro cycles
  induction cycles with
  | nil => intro rs rec hmem; simp [read, emittedRecords] at hmem
  | cons cyc rest ih =>
    intro rs rec hmem hpres
    by_cases hd : cyc.doneAtTop
    · simp [read, hd, emittedRecords] at hmem
    · rcases hw : waitForStatusChange rs cyc.waitSteps with ⟨rs1, wexit, n⟩
      cases wexit with
      | ok =>
        rcases hpr : processReaders rs1 cyc.cardEnvs with ⟨tr, rs2, envs', pexit⟩
        have htr : ∀ rec ∈ emittedRecords tr,
            rec.eventState &&& statePresent ≠ 0 →
            ∃ c, rec.userData = UserData.cardPtr c := by
          intro rec0 hm0 hp0
          exact processReaders_present_payload rs1 cyc.cardEnvs rec0
            (by rw [hpr]; exact hm0) hp0
        cases pexit with
        | ok =>
          rw [show (read (cyc :: rest) rs).events
                = tr ++ (read rest rs2).events by
              simp [read, hd, hw, hpr]] at hmem
          simp [emittedRecords_append] at hmem
          rcases hmem with hm | hm
          · exact htr rec hm hpres
          · exact ih rs2 rec hm hpres
        | fatal e =>
          rw [show (read (cyc :: rest) rs).events = tr by
              simp [read, hd, hw, hpr]] at hmem
          exact htr rec hmem hpres
        | scriptEnd =>
          rw [show (read (cyc :: rest) rs).events = tr by
              simp [read, hd, hw, hpr]] at hmem
          exact htr rec hmem hpres
      | shutdown =>
        rw [show (read (cyc :: rest) rs).events = [] by
            simp [read, hd, hw]] at hmem
        simp [emittedRecords] at hmem
      | fatal w =>
        rw [show (read (cyc :: rest) rs).events = [] by
            simp [read, hd, hw]] at hmem
        simp [emittedRecords] at hmem
      | scriptEnd =>
        rw [show (read (cyc :: rest) rs).events = [] by
            simp [read, hd, hw]] at hmem
        simp [emittedRecords] at hmem

lemma dispatch_eq_of_payload :
    ∀ (recs : List ReaderState),
      (∀ rec ∈ recs, rec.eventState &&& statePresent ≠ 0 →
        ∃ c, rec.userData = UserData.cardPtr c) →
      dispatch recs = (recs.filterMap presCard, none) := by
  intro recs
  induction recs with
  | nil => intro _; rfl
  | cons rec rest ih =>
    intro h
    have hrest := ih fun r hr hp => h r (List.mem_cons_of_mem _ hr) hp
    by_cases hp : rec.eventState &&& statePresent ≠ 0
    · obtain ⟨c, hc⟩ := h rec (List.mem_cons_self _ _) hp
      cases c with
      | none => simp [dispatch, hp, hc, presCard, hrest]
      | some c0 => simp [dispatch, hp, hc, presCard, hrest]
    · simp [dispatch, hp, presCard, hrest]

lemma setEvents_userData :
    ∀ (rs : List ReaderState) (evs : List Nat),
      (setEvents rs evs).map ReaderState.userData
        = rs.map ReaderState.userData := by
  intro rs
  induction rs with
  | nil => intro evs; cases evs <;> simp [setEvents]
  | cons r rest ih =>
    intro evs
    cases evs with
    | nil => simp [setEvents]
    | cons e es => simp [setEvents, ih]

lemma setEvents_reader :
    ∀ (rs : List ReaderState) (evs : List Nat),
      (setEvents rs evs).map ReaderState.reader
        = rs.map ReaderState.reader := by
  intro rs
  induction rs with
  | nil => intro evs; cases evs <;> simp [setEvents]
  | cons r rest ih =>
    intro evs
    cases evs with
    | nil => simp [setEvents]
    | cons e es => simp [setEvents, ih]

lemma waitForStatusChange_userData :
    ∀ (steps : List WaitStep) (rs : List ReaderState),
      ((waitForStatusChange rs steps).1).map ReaderState.userData
        = rs.map ReaderState.userData := by
  intro steps
  induction steps with
  | nil => intro rs; rfl
  | cons step rest ih =>
    intro rs
    by_cases hd : step.doneAfter <;> rcases hg : step.gsc with e | evs
    · simp [waitForStatusChange, hd, hg]
    · simp [waitForStatusChange, hd, hg, setEvents_userData]
    · by_cases he : e = ScardErr.timeout
      · subst he
        simpa [waitForStatusChange, hd, hg, errorsIs, wrapError] using ih rs
      · simp [waitForStatusChange, hd, hg, errorsIs, wrapError, he]
    · simp [waitForStatusChange, hd, hg, setEvents_userData]

lemma waitForStatusChange_reader :
    ∀ (steps : List WaitStep) (rs : List ReaderState),
      ((waitForStatusChange rs steps).1).map ReaderState.reader
        = rs.map ReaderState.reader := by
  intro steps
  induction steps with
  | nil => intro rs; rfl
  | cons step rest ih =>
    intro rs
    by_cases hd : step.doneAfter <;> rcases hg : step.gsc with e | evs
    · simp [waitForStatusChange, hd, hg]
    · simp [waitForStatusChange, hd, hg, setEvents_reader]
    · by_cases he : e = ScardErr.timeout
      · subst he
        simpa [waitForStatusChange, hd, hg, errorsIs, wrapError] using ih rs
      · simp [waitForStatusChange, hd, hg, errorsIs, wrapError, he]
    · simp [waitForStatusChange, hd, hg, setEvents_reader]

lemma allEmpty_of_map {rs rs' : List ReaderState}
    (h : rs'.map ReaderState.userData = rs.map ReaderState.userData)
    (he : allEmpty rs) : allEmpty rs' := by
  intro r hr
  have hm : r.userData ∈ rs'.map ReaderState.userData :=
    List.mem_map_of_mem _ hr
  rw [h] at hm
  rcases List.mem_map.mp hm with ⟨r0, hr0, hu⟩
  rw [← hu]; exact he r0 hr0

lemma processOne_ok_userData (r : ReaderState) (envs : List CardEnv)
    (hr : r.userData = UserData.empty) :
    ∀ tr r' envs', processOne r envs = (tr, r', envs', ProcExit.ok) →
      r'.userData = UserData.empty := by
  intro tr r' envs' hpo
  by_cases h1 : r.eventState = r.currentState
  · simp [processOne, h1] at hpo
    rw [← hpo.2.1]; exact hr
  · by_cases h2 : r.eventState &&& statePresent ≠ 0
    · cases envs with
      | nil => simp [processOne, h1, h2] at hpo
      | cons env rest =>
        rcases hrc : readCardData env r with ⟨tr0, res⟩
        cases res with
        | error e => simp [processOne, h1, h2, hrc] at hpo
        | ok c =>
          simp [processOne, h1, h2, hrc] at hpo
          rw [← hpo.2.1]
    · simp [processOne, h1, h2] at hpo
      rw [← hpo.2.1]

lemma processOne_reader (r : ReaderState) (envs : List CardEnv) :
    ∀ tr r' envs' ex, processOne r envs = (tr, r', envs', ex) →
      r'.reader = r.reader := by
  intro tr r' envs' ex hpo
  by_cases h1 : r.eventState = r.currentState
  · simp [processOne, h1] at hpo
    rw [← hpo.2.1]
  · by_cases h2 : r.eventState &&& statePresent ≠ 0
    · cases envs with
      | nil =>
        simp [processOne, h1, h2] at hpo
        rw [← hpo.2.1]
      | cons env rest =>
        rcases hrc : readCardData env r with ⟨tr0, res⟩
        cases res with
        | error e =>
          simp [processOne, h1, h2, hrc] at hpo
          rw [← hpo.2.1]
        | ok c =>
          simp [processOne, h1, h2, hrc] at hpo
          rw [← hpo.2.1]
    · simp [processOne, h1, h2] at hpo
      rw [← hpo.2.1]

lemma processReaders_ok_allEmpty :
    ∀ (rs : List ReaderState) (envs : List CardEnv),
      allEmpty rs →
      ∀ tr rs' envs', processReaders rs envs = (tr, rs', envs', ProcExit.ok) →
        allEmpty rs' := by
  intro rs
  induction rs with
  | nil =>
    intro envs _ tr rs' envs' h
    simp [processReaders] at h
    rw [h.2.1]
    intro r hr; simp at hr
  | cons r rest ih =>
    intro envs hall tr rs' envs' h
    rcases hpo : processOne r envs with ⟨tr0, r0, envs0, ex⟩
    cases ex with
    | ok =>
      rcases hpr : processReaders rest envs0 with ⟨tr2, rest', envs'', ex2⟩
      rw [show processReaders (r :: rest) envs
            = (tr0 ++ tr2, r0 :: rest', envs'', ex2) by
          simp [processReaders, hpo, hpr]] at h
      have hx2 : ex2 = ProcExit.ok := by
        have := congrArg (fun p => p.2.2.2) h; simpa using this
      subst hx2
      have hrs' : rs' = r0 :: rest' := by
        have := congrArg (fun p => p.2.1) h; simpa using this.symm
      subst hrs'
      intro x hx
      rcases List.mem_cons.mp hx with hx0 | hx0
      · subst hx0
        exact processOne_ok_userData r envs (hall r (by simp)) tr0 x envs0 hpo
      · exact ih envs0 (fun y hy => hall y (List.mem_cons_of_mem _ hy))
          tr2 rest' envs'' hpr x hx0
    | fatal e =>
      rw [show processReaders (r :: rest) envs = (tr0, r0 :: rest, envs0, .fatal e)
          by simp [processReaders, hpo]] at h
      exact absurd (congrArg (fun p => p.2.2.2) h) (by simp)
    | scriptEnd =>
      rw [show processReaders (r :: rest) envs = (tr0, r0 :: rest, envs0, .scriptEnd)
          by simp [processReaders, hpo]] at h
      exact absurd (congrArg (fun p => p.2.2.2) h) (by simp)

lemma processReaders_ok_reader :
    ∀ (rs : List ReaderState) (envs : List CardEnv),
      ∀ tr rs' envs', processReaders rs envs = (tr, rs', envs', ProcExit.ok) →
        rs'.map ReaderState.reader = rs.map ReaderState.reader := by
  intro rs
  induction rs with
  | nil =>
    intro envs tr rs' envs' h
    simp [processReaders] at h
    rw [h.2.1]
  | cons r rest ih =>
    intro envs tr rs' envs' h
    rcases hpo : processOne r envs with ⟨tr0, r0, envs0, ex⟩
    cases ex with
    | ok =>
      rcases hpr : processReaders rest envs0 with ⟨tr2, rest', envs'', ex2⟩
      rw [show processReaders (r :: rest) envs
            = (tr0 ++ tr2, r0 :: rest', envs'', ex2) by
          simp [processReaders, hpo, hpr]] at h
      have hx2 : ex2 = ProcExit.ok := by
        have := congrArg (fun p => p.2.2.2) h; simpa using this
      subst hx2
      have hrs' : rs' = r0 :: rest' := by
        have := congrArg (fun p => p.2.1) h; simpa using this.symm
      subst hrs'
      simp [processOne_reader r envs tr0 r0 envs0 ProcExit.ok hpo,
        ih envs0 tr2 rest' envs'' hpr]
    | fatal e =>
      rw [show processReaders (r :: rest) envs = (tr0, r0 :: rest, envs0, .fatal e)
          by simp [processReaders, hpo]] at h
      exact absurd (congrArg (fun p => p.2.2.2) h) (by simp)
    | scriptEnd =>
      rw [show processReaders (r :: rest) envs = (tr0, r0 :: rest, envs0, .scriptEnd)
          by simp [processReaders, hpo]] at h
      exact absurd (congrArg (fun p => p.2.2.2) h) (by simp)

lemma read_waitEntries_allEmpty :
    ∀ (cycles : List CycleInput) (rs : List ReaderState),
      allEmpty rs →
      ∀ entry ∈ (read cycles rs).waitEntries, allEmpty entry := by
  intro cycles
  induction cycles with
  | nil => intro rs _ entry h; simp [read] at h
  | cons cyc rest ih =>
    intro rs hall entry hmem
    by_cases hd : cyc.doneAtTop
    · simp [read, hd] at hmem
    · rcases hw : waitForStatusChange rs cyc.waitSteps with ⟨rs1, wexit, n⟩
      have hall1 : allEmpty rs1 := by
        have := waitForStatusChange_userData cyc.waitSteps rs
        rw [hw] at this
        exact allEmpty_of_map this hall
      cases wexit with
      | ok =>
        rcases hpr : processReaders rs1 cyc.cardEnvs with ⟨tr, rs2, envs', pexit⟩
        cases pexit with
        | ok =>
          rw [show (read (cyc :: rest) rs).waitEntries
                = rs :: (read rest rs2).waitEntries by
              simp [read, hd, hw, hpr]] at hmem
          rcases List.mem_cons.mp hmem with h0 | h0
          · subst h0; exact hall
          · exact ih rs2
              (processReaders_ok_allEmpty rs1 cyc.cardEnvs hall1 tr rs2 envs' hpr)
              entry h0
        | fatal e =>
          rw [show (read (cyc :: rest) rs).waitEntries = [rs] by
              simp [read, hd, hw, hpr]] at hmem
          simp at hmem; subst hmem; exact hall
        | scriptEnd =>
          rw [show (read (cyc :: rest) rs).waitEntries = [rs] by
              simp [read, hd, hw, hpr]] at hmem
          simp at hmem; subst hmem; exact hall
      | shutdown =>
        rw [show (read (cyc :: rest) rs).waitEntries = [rs] by
            simp [read, hd, hw]] at hmem
        simp at hmem; subst hmem; exact hall
      | fatal w =>
        rw [show (read (cyc :: rest) rs).waitEntries = [rs] by
            simp [read, hd, hw]] at hmem
        simp at hmem; subst hmem; exact hall
      | scriptEnd =>
        rw [show (read (cyc :: rest) rs).waitEntries = [rs] by
            simp [read, hd, hw]] at hmem
        simp at hmem; subst hmem; exact hall

lemma processReaders_reader_sublist :
    ∀ (rs : List ReaderState) (envs : List CardEnv),
      ((emittedRecords (processReaders rs envs).1).map ReaderState.reader).Sublist
        (rs.map ReaderState.reader) := by
  intro rs
  induction rs with
  | nil => intro envs; simp [processReaders, emittedRecords]
  | cons r rest ih =>
    intro envs
    rcases hpo : processOne r envs with ⟨tr0, r0, envs0, ex⟩
    have hshape := processOne_emit_shape r envs
    rw [hpo] at hshape
    simp only [] at hshape
    cases ex with
    | ok =>
      rcases hpr : processReaders rest envs0 with ⟨tr2, rest', envs'', ex2⟩
      rw [show processReaders (r :: rest) envs
            = (tr0 ++ tr2, r0 :: rest', envs'', ex2) by
          simp [processReaders, hpo, hpr]]
      simp only [emittedRecords_append, List.map_append, List.map_cons]
      have hih := ih envs0
      rw [hpr] at hih
      rcases hshape with h | ⟨rec, he, hrd, _⟩
      · rw [h]
        simp only [List.map_nil, List.nil_append]
        exact List.sublist_cons_of_sublist _ hih
      · rw [he]
        simp only [List.map_cons, List.map_nil, List.singleton_append]
        rw [hrd]
        exact List.Sublist.cons₂ _ hih
    | fatal e =>
      rw [show processReaders (r :: rest) envs = (tr0, r0 :: rest, envs0, .fatal e)
          by simp [processReaders, hpo]]
      simp only [List.map_cons]
      rcases hshape with h | ⟨rec, he, hrd, _⟩
      · rw [h]; simp
      · rw [he]
        simp only [List.map_cons, List.map_nil]
        rw [hrd]
        exact List.Sublist.cons₂ _ (List.nil_sublist _)
    | scriptEnd =>
      rw [show processReaders (r :: rest) envs = (tr0, r0 :: rest, envs0, .scriptEnd)
          by simp [processReaders, hpo]]
      simp only [List.map_cons]
      rcases hshape with h | ⟨rec, he, hrd, _⟩
      · rw [h]; simp
      · rw [he]
        simp only [List.map_cons, List.map_nil]
        rw [hrd]
        exact List.Sublist.cons₂ _ (List.nil_sublist _)

lemma present_ne_of_flags {r : ReaderState}
    (hcur : r.currentState &&& statePresent = 0)
    (hnew : r.eventState &&& statePresent ≠ 0) :
    r.eventState ≠ r.currentState := by
  intro h
  rw [h, hcur] at hnew
  exact hnew rfl

/-! ## Claim theorems -/

/-- C1 counterexample: a run whose polling engine terminates with a fatal
non-timeout wait failure, yet `Serve` returns nil — not that error. -/
theorem c1_counterexample :
    (read scriptWaitFatal (initializeReaderState ctxOne)).exit
      = EngineExit.waitFatal
          (wrapError "error waiting for status change" ScardErr.unknownError)
    ∧ serve ctxOne scriptWaitFatal = ([], none) :=
  ⟨rfl, rfl⟩

/-- C1 (amended): when the polling engine terminates with a fatal error (a
non-timeout wait failure or an identity-read failure), `Serve` still
returns nil to its caller — the terminal error is logged inside the engine
and discarded, never propagated; `Serve`'s return value comes from the
dispatch loop alone. -/
theorem c1_serve_nil_on_engine_fatal (actx : Context) (cycles : List CycleInput)
    (_h : (∃ w, (read cycles (initializeReaderState actx)).exit
            = EngineExit.waitFatal w)
       ∨ (∃ e, (read cycles (initializeReaderState actx)).exit
            = EngineExit.readFatal e)) :
    (serve actx cycles).2 = none := by
  have hp := read_present_payload cycles (initializeReaderState actx)
  have hd := dispatch_eq_of_payload _ hp
  simp [serve, hd]

/-- Witness for C1 at the concrete fatal-wait run. -/
theorem c1_serve_nil_on_engine_fatal_witness :
    (serve ctxOne scriptWaitFatal).2 = none :=
  c1_serve_nil_on_engine_fatal ctxOne scriptWaitFatal
    (Or.inl ⟨wrapError "error waiting for status change" ScardErr.unknownError,
      rfl⟩)

/-- C2 counterexample: `Connect` failing with the card-removed condition is
not treated as benign absence: the error is fatal to the cycle and no
transition record is emitted. -/
theorem c2_counterexample :
    (read scriptRemoved (initializeReaderState ctxOne)).exit
      = EngineExit.readFatal
          (GoErr.wrapped (wrapError "readCardData connect error" ScardErr.removedCard))
    ∧ emittedRecords (read scriptRemoved (initializeReaderState ctxOne)).events
        = [] :=
  ⟨rfl, rfl⟩

/-- C2 (amended): on a presence transition, a connect failure with the
no-card or unpowered condition is benign — no payload, no error, and the
transition record is still emitted with a nil card payload; a connect
failure with any other condition, the card-removed condition included, is
fatal to the cycle and nothing is emitted. -/
theorem c2_connect_failure (r : ReaderState) (env : CardEnv)
    (envs : List CardEnv) (e : ScardErr)
    (hdiff : r.eventState ≠ r.currentState)
    (hpres : r.eventState &&& statePresent ≠ 0)
    (hconn : env.connect = Except.error e) :
    (e = ScardErr.noSmartcard ∨ e = ScardErr.unpoweredCard →
      processOne r (env :: envs)
        = ([Ev.connect r.reader,
            Ev.emit { r with userData := UserData.cardPtr none }],
           { r with currentState := r.eventState, userData := UserData.empty },
           envs, ProcExit.ok))
    ∧ (e ≠ ScardErr.noSmartcard → e ≠ ScardErr.unpoweredCard →
      processOne r (env :: envs)
        = ([Ev.connect r.reader],
           { r with userData := UserData.cardPtr none },
           envs,
           ProcExit.fatal
             (GoErr.wrapped (wrapError "readCardData connect error" e)))) := by
  constructor
  · rintro (he | he) <;> subst he <;>
      simp [processOne, hdiff, hpres, readCardData, hconn, errorsIs, wrapError]
  · intro h1 h2
    simp [processOne, hdiff, hpres, readCardData, hconn, errorsIs, wrapError,
      h1, h2]

/-- Witness for C2 at a concrete no-card connect failure. -/
theorem c2_connect_failure_witness :
    processOne (⟨"R1", 0, 32, UserData.empty⟩ : ReaderState)
        [⟨Except.error ScardErr.noSmartcard, Except.ok [], false⟩]
      = ([Ev.connect "R1",
          Ev.emit ⟨"R1", 0, 32, UserData.cardPtr none⟩],
         ⟨"R1", 32, 32, UserData.empty⟩, [], ProcExit.ok) :=
  (c2_connect_failure ⟨"R1", 0, 32, UserData.empty⟩
      ⟨Except.error ScardErr.noSmartcard, Except.ok [], false⟩ [] _
      (by decide) (by decide) rfl).1 (Or.inl rfl)

/-- C3 counterexample: a card presented in cycle 1 and still present in
cycle 2 (the in-use flag turning on) gets the handler invoked a second
time; the second emitted record's previously recorded flags already hold
the present flag, so this is not a newly-presented card. -/
theorem c3_counterexample :
    (serve ctxOne scriptStillPresent).1
      = [⟨"R1", [222, 173, 190, 239]⟩, ⟨"R1", [222, 173, 190, 239]⟩]
    ∧ (emittedRecords
          (read scriptStillPresent (initializeReaderState ctxOne)).events).map
        ReaderState.currentState = [0, 32] :=
  ⟨rfl, rfl⟩

/-- C3 (amended): the handler receives exactly one invocation, in order,
per emitted record whose newly-observed flags include present and whose
payload is a non-nil card; and such a record is produced whenever a
reader's newly-observed flags differ at all from its recorded flags and
include present — also when a card stays present while other flags
change. -/
theorem c3_handler_per_emitted_record
    (actx : Context) (cycles : List CycleInput)
    (r : ReaderState) (env : CardEnv) (envs : List CardEnv) (uid : List Nat)
    (hdiff : r.eventState ≠ r.currentState)
    (hpres : r.eventState &&& statePresent ≠ 0)
    (hconn : env.connect = Except.ok ())
    (huid : env.uid = Except.ok uid) :
    (serve actx cycles).1
      = (emittedRecords
          (read cycles (initializeReaderState actx)).events).filterMap presCard
    ∧ processOne r (env :: envs)
      = ([Ev.connect r.reader, Ev.getUID r.reader, Ev.disconnect r.reader,
          Ev.emit { r with userData := UserData.cardPtr (some ⟨r.reader, uid⟩) }],
         { r with currentState := r.eventState, userData := UserData.empty },
         envs, ProcExit.ok) := by
  constructor
  · have hp := read_present_payload cycles (initializeReaderState actx)
    have hd := dispatch_eq_of_payload _ hp
    simp [serve, hd]
  · simp [processOne, hdiff, hpres, readCardData, hconn, huid]

/-- Witness for C3 at the still-present re-read input. -/
theorem c3_handler_per_emitted_record_witness :
    (serve ctxOne scriptStillPresent).1
      = (emittedRecords
          (read scriptStillPresent (initializeReaderState ctxOne)).events).filterMap
          presCard
    ∧ processOne (⟨"R1", 32, 288, UserData.empty⟩ : ReaderState) [envOK]
      = ([Ev.connect "R1", Ev.getUID "R1", Ev.disconnect "R1",
          Ev.emit ⟨"R1", 32, 288,
            UserData.cardPtr (some ⟨"R1", [222, 173, 190, 239]⟩)⟩],
         ⟨"R1", 288, 288, UserData.empty⟩, [], ProcExit.ok) :=
  c3_handler_per_emitted_record ctxOne scriptStillPresent
    ⟨"R1", 32, 288, UserData.empty⟩ envOK [] [222, 173, 190, 239]
    (by decide) (by decide) rfl rfl

/-- C4: a timeout failure of a wait call never terminates the polling
cycle — the step is swallowed and the wait retried (only the call counter
advances) — and no terminating exit of `waitForStatusChange` ever carries a
timeout condition: the loop runs until cancellation, a status change, or a
non-timeout failure. -/
theorem c4_timeout_retry (rs : List ReaderState) (steps : List WaitStep) :
    (∀ rest : List WaitStep,
      waitForStatusChange rs (⟨Except.error ScardErr.timeout, false⟩ :: rest)
        = ((waitForStatusChange rs rest).1, (waitForStatusChange rs rest).2.1,
           (waitForStatusChange rs rest).2.2 + 1))
    ∧ (∀ w, (waitForStatusChange rs steps).2.1 = WaitExit.fatal w →
        errorsIs w ScardErr.timeout = false) := by
  constructor
  · intro rest
    rcases h : waitForStatusChange rs rest with ⟨a, ex, n⟩
    simp [waitForStatusChange, errorsIs, wrapError, h]
  · induction steps generalizing rs with
    | nil => intro w h; simp [waitForStatusChange] at h
    | cons step rest ih =>
      intro w h
      by_cases hd : step.doneAfter
      · simp [waitForStatusChange, hd] at h
      · rcases hg : step.gsc with e | evs
        · by_cases he : e = ScardErr.timeout
          · subst he
            rcases h2 : waitForStatusChange rs rest with ⟨a, ex, n⟩
            rw [show waitForStatusChange rs (step :: rest) = (a, ex, n + 1) by
                simp [waitForStatusChange, hd, hg, errorsIs, wrapError, h2]] at h
            simp at h
            have := ih rs w
            rw [h2] at this
            exact this (by simp [h])
          · rw [show waitForStatusChange rs (step :: rest)
                  = (rs, .fatal (wrapError "error waiting for status change" e), 1)
                by simp [waitForStatusChange, hd, hg, errorsIs, wrapError, he]] at h
            simp at h
            rw [← h]
            simp [errorsIs, wrapError, he]
        · simp [waitForStatusChange, hd, hg] at h

/-- Witness for C4 at a one-step script failing with a non-timeout error. -/
theorem c4_timeout_retry_witness :
    ∃ w, (waitForStatusChange (initializeReaderState ctxOne)
        [⟨Except.error ScardErr.unknownError, false⟩]).2.1 = WaitExit.fatal w
      ∧ errorsIs w ScardErr.timeout = false :=
  ⟨wrapError "error waiting for status change" ScardErr.unknownError, rfl,
   (c4_timeout_retry (initializeReaderState ctxOne)
      [⟨Except.error ScardErr.unknownError, false⟩]).2 _ rfl⟩

/-- C5: the cancellation token is checked before each wait call (ending the
engine with no emissions and no `GetStatusChange` call) and immediately
after each wait call returns, where it takes priority over a successful
status change observed in the same wait; signaled during the first wait
call, the engine stops after that single `GetStatusChange` call — one poll
quantum — and `Serve` returns with no error and zero handler
invocations. -/
theorem c5_cancellation (actx : Context) (cyc : CycleInput)
    (cycles : List CycleInput) (rs : List ReaderState)
    (step : WaitStep) (steps : List WaitStep) :
    (cyc.doneAtTop = true →
      read (cyc :: cycles) rs = ⟨[], EngineExit.canceled, rs, [], 0⟩
      ∧ serve actx (cyc :: cycles) = ([], none))
    ∧ (∀ evs, step.gsc = Except.ok evs → step.doneAfter = true →
        waitForStatusChange rs (step :: steps)
          = (setEvents rs evs, WaitExit.shutdown, 1))
    ∧ (cyc.doneAtTop = false → cyc.waitSteps = step :: steps →
        step.doneAfter = true →
      (read (cyc :: cycles) rs).events = []
      ∧ (read (cyc :: cycles) rs).exit = EngineExit.waitShutdown
      ∧ (read (cyc :: cycles) rs).gscCalls = 1
      ∧ serve actx (cyc :: cycles) = ([], none)) := by
  refine ⟨?_, ?_, ?_⟩
  · intro hd
    refine ⟨by simp [read, hd], ?_⟩
    simp [serve, read, hd, emittedRecords, dispatch]
  · intro evs hg hdone
    simp [waitForStatusChange, hg, hdone]
  · intro hd hsteps hdone
    have hw : ∀ rs0 : List ReaderState,
        waitForStatusChange rs0 cyc.waitSteps
          = ((match step.gsc with
              | .ok evs => setEvents rs0 evs
              | .error _ => rs0), WaitExit.shutdown, 1) := by
      intro rs0
      rw [hsteps]
      rcases hg : step.gsc with e | evs <;>
        simp [waitForStatusChange, hg, hdone]
    refine ⟨?_, ?_, ?_, ?_⟩
    · simp [read, hd, hw rs]
    · simp [read, hd, hw rs]
    · simp [read, hd, hw rs]
    · simp [serve, read, hd, hw (initializeReaderState actx), emittedRecords,
        dispatch]

/-- Witness for C5: cancellation at the top of the loop, and cancellation
observed right after a successful first wait call. -/
theorem c5_cancellation_witness :
    (read [⟨true, [], []⟩] (initializeReaderState ctxOne)
        = ⟨[], EngineExit.canceled, initializeReaderState ctxOne, [], 0⟩
      ∧ serve ctxOne [⟨true, [], []⟩] = ([], none))
    ∧ ((read [⟨false, [⟨Except.ok [32], true⟩], []⟩]
          (initializeReaderState ctxOne)).gscCalls = 1
      ∧ serve ctxOne [⟨false, [⟨Except.ok [32], true⟩], []⟩] = ([], none)) :=
  ⟨(c5_cancellation ctxOne ⟨true, [], []⟩ [] (initializeReaderState ctxOne)
      ⟨Except.ok [], false⟩ []).1 rfl,
   ⟨((c5_cancellation ctxOne ⟨false, [⟨Except.ok [32], true⟩], []⟩ []
        (initializeReaderState ctxOne) ⟨Except.ok [32], true⟩ []).2.2
      rfl rfl rfl).2.2.1,
    ((c5_cancellation ctxOne ⟨false, [⟨Except.ok [32], true⟩], []⟩ []
        (initializeReaderState ctxOne) ⟨Except.ok [32], true⟩ []).2.2
      rfl rfl rfl).2.2.2⟩⟩

/-- C6: on a presence transition (current flags lacking present, new flags
including it) the engine makes exactly one connect call; when the connect
succeeds, the identity read and then the disconnect always follow — the
emission coming only after the disconnect — and on the identity-read error
path the disconnect still runs while the record is not emitted and the
error is fatal to the cycle. -/
theorem c6_card_session_sequence (r : ReaderState) (env : CardEnv)
    (envs : List CardEnv)
    (hcur : r.currentState &&& statePresent = 0)
    (hnew : r.eventState &&& statePresent ≠ 0) :
    ((processOne r (env :: envs)).1.countP
        (fun ev => match ev with | Ev.connect _ => true | _ => false) = 1)
    ∧ (∀ uid, env.connect = Except.ok () → env.uid = Except.ok uid →
        processOne r (env :: envs)
          = ([Ev.connect r.reader, Ev.getUID r.reader, Ev.disconnect r.reader,
              Ev.emit
                { r with userData := UserData.cardPtr (some ⟨r.reader, uid⟩) }],
             { r with currentState := r.eventState, userData := UserData.empty },
             envs, ProcExit.ok))
    ∧ (∀ e, env.connect = Except.ok () → env.uid = Except.error e →
        processOne r (env :: envs)
          = ([Ev.connect r.reader, Ev.getUID r.reader, Ev.disconnect r.reader],
             { r with userData := UserData.cardPtr none },
             envs, ProcExit.fatal e)) := by
  have hdiff := present_ne_of_flags hcur hnew
  refine ⟨?_, ?_, ?_⟩
  · rcases hc : env.connect with e | u
    · simp [processOne, hdiff, hnew, readCardData, hc]
      split_ifs <;> simp [List.countP, List.countP.go]
    · rcases hu : env.uid with e | uid <;>
        simp [processOne, hdiff, hnew, readCardData, hc, hu, List.countP,
          List.countP.go]
  · intro uid hc hu
    simp [processOne, hdiff, hnew, readCardData, hc, hu]
  · intro e hc hu
    simp [processOne, hdiff, hnew, readCardData, hc, hu]

/-- Witness for C6 at a concrete presence transition with a successful
connect and identity read. -/
theorem c6_card_session_sequence_witness :
    processOne (⟨"R1", 0, 32, UserData.empty⟩ : ReaderState) [envOK]
      = ([Ev.connect "R1", Ev.getUID "R1", Ev.disconnect "R1",
          Ev.emit ⟨"R1", 0, 32,
            UserData.cardPtr (some ⟨"R1", [222, 173, 190, 239]⟩)⟩],
         ⟨"R1", 32, 32, UserData.empty⟩, [], ProcExit.ok) :=
  (c6_card_session_sequence ⟨"R1", 0, 32, UserData.empty⟩ envOK []
      (by decide) (by decide)).2.1 [222, 173, 190, 239] rfl rfl

/-- C7: the transient payload lives only between transition detection and
emission: the initial reader table has every payload empty, emitting a
transitioned record immediately sets its current flags to the
newly-observed flags and clears its payload, and at the entry of every
wait call of a run every record's payload is empty again. -/
theorem c7_payload_window (actx : Context) (cycles : List CycleInput)
    (r : ReaderState) (envs : List CardEnv) :
    allEmpty (initializeReaderState actx)
    ∧ (∀ tr r' envs', r.eventState ≠ r.currentState →
        processOne r envs = (tr, r', envs', ProcExit.ok) →
        r'.currentState = r.eventState ∧ r'.userData = UserData.empty)
    ∧ (∀ entry ∈ (read cycles (initializeReaderState actx)).waitEntries,
        allEmpty entry) := by
  refine ⟨?_, ?_, ?_⟩
  · intro x hx
    simp [initializeReaderState] at hx
    rcases hx with ⟨name, _, hx⟩
    rw [← hx]
  · intro tr r' envs' hdiff hpo
    by_cases h2 : r.eventState &&& statePresent ≠ 0
    · cases envs with
      | nil => simp [processOne, hdiff, h2] at hpo
      | cons env rest =>
        rcases hrc : readCardData env r with ⟨tr0, res⟩
        cases res with
        | error e => simp [processOne, hdiff, h2, hrc] at hpo
        | ok c =>
          simp [processOne, hdiff, h2, hrc] at hpo
          rw [← hpo.2.1]
          exact ⟨rfl, rfl⟩
    · simp [processOne, hdiff, h2] at hpo
      rw [← hpo.2.1]
      exact ⟨rfl, rfl⟩
  · exact read_waitEntries_allEmpty cycles (initializeReaderState actx)
      (fun x hx => by
        simp [initializeReaderState] at hx
        rcases hx with ⟨name, _, hx⟩
        rw [← hx])

/-- Witness for C7: the emitted-and-reset record of a concrete presence
cycle, and the payload-empty entry of its wait call. -/
theorem c7_payload_window_witness :
    ((⟨"R1", 32, 32, UserData.empty⟩ : ReaderState).currentState = 32
      ∧ (⟨"R1", 32, 32, UserData.empty⟩ : ReaderState).userData
          = UserData.empty)
    ∧ allEmpty [⟨"R1", 0, 0, UserData.empty⟩] :=
  ⟨(c7_payload_window ctxOne scriptNoCard
      ⟨"R1", 0, 32, UserData.empty⟩ [envOK]).2.1
      [Ev.connect "R1", Ev.getUID "R1", Ev.disconnect "R1",
       Ev.emit ⟨"R1", 0, 32,
         UserData.cardPtr (some ⟨"R1", [222, 173, 190, 239]⟩)⟩]
      ⟨"R1", 32, 32, UserData.empty⟩ [] (by decide) rfl,
   (c7_payload_window ctxOne scriptNoCard
      ⟨"R1", 0, 32, UserData.empty⟩ [envOK]).2.2
      [⟨"R1", 0, 0, UserData.empty⟩] (by decide)⟩

/-- C8: a drained transition record carrying the present flag and a payload
that is not a `*card` makes `Serve` return `ErrUnhandledCardData` at once:
the handler invocations are exactly those of the records before it, and no
handler call occurs for that record or any later one. -/
theorem c8_unhandled_card_data (pre post : List ReaderState)
    (rec : ReaderState)
    (hpres : rec.eventState &&& statePresent ≠ 0)
    (hpay : rec.userData = UserData.otherData)
    (hpre : ∀ r ∈ pre, r.eventState &&& statePresent ≠ 0 →
      ∃ c, r.userData = UserData.cardPtr c) :
    dispatch (pre ++ rec :: post)
      = (pre.filterMap presCard, some LibErr.unhandledCardData) := by
  induction pre with
  | nil => simp [dispatch, hpres, hpay]
  | cons r rest ih =>
    have hr := hpre r (List.mem_cons_self _ _)
    have hrest := ih fun x hx hp => hpre x (List.mem_cons_of_mem _ hx) hp
    by_cases hp : r.eventState &&& statePresent ≠ 0
    · obtain ⟨c, hc⟩ := hr hp
      cases c with
      | none => simp [dispatch, hp, hc, presCard, hrest]
      | some c0 => simp [dispatch, hp, hc, presCard, hrest]
    · simp [dispatch, hp, presCard, hrest]

/-- Witness for C8 at a single bad record. -/
theorem c8_unhandled_card_data_witness :
    dispatch [⟨"R1", 0, 32, UserData.otherData⟩]
      = ([], some LibErr.unhandledCardData) :=
  c8_unhandled_card_data [] [] ⟨"R1", 0, 32, UserData.otherData⟩
    (by decide) rfl (fun r hr => absurd hr (by simp))

/-- C9: the reader table mirrors the Context's reader-name ordering; within
one wait cycle the emitted records' reader names form an order-preserving
subsequence of the table order; and the dispatch loop — a single loop with
one synchronous handler call per record — invokes the handler in exactly
emission order (the order-preserving projection of the drained records). -/
theorem c9_order (actx : Context) (rs : List ReaderState)
    (envs : List CardEnv) (recs : List ReaderState)
    (hrecs : ∀ rec ∈ recs, rec.eventState &&& statePresent ≠ 0 →
      ∃ c, rec.userData = UserData.cardPtr c) :
    (initializeReaderState actx).map ReaderState.reader = actx.readers
    ∧ ((emittedRecords (processReaders rs envs).1).map ReaderState.reader).Sublist
        (rs.map ReaderState.reader)
    ∧ (dispatch recs).1 = recs.filterMap presCard := by
  refine ⟨?_, processReaders_reader_sublist rs envs, ?_⟩
  · have hmap : ∀ l : List String,
        List.map ReaderState.reader
          (l.map fun r => (⟨r, stateUnaware, 0, .empty⟩ : ReaderState)) = l := by
      intro l
      induction l with
      | nil => rfl
      | cons a t ih => simp [ih]
    simpa [initializeReaderState] using hmap actx.readers
  · simp [dispatch_eq_of_payload recs hrecs]

/-- Witness for C9: two readers transitioning in the same wait return are
served in table order. -/
theorem c9_order_witness :
    (initializeReaderState ctxTwo).map ReaderState.reader = ["R1", "R2"]
    ∧ (dispatch
        [⟨"R1", 0, 32, UserData.cardPtr (some ⟨"R1", [1]⟩)⟩,
         ⟨"R2", 0, 32, UserData.cardPtr (some ⟨"R2", [2]⟩)⟩]).1
      = [⟨"R1", [1]⟩, ⟨"R2", [2]⟩] :=
  ⟨(c9_order ctxTwo [] [] [] (fun rec hr => absurd hr (by simp))).1,
   (c9_order ctxTwo [] []
      [⟨"R1", 0, 32, UserData.cardPtr (some ⟨"R1", [1]⟩)⟩,
       ⟨"R2", 0, 32, UserData.cardPtr (some ⟨"R2", [2]⟩)⟩]
      (by intro rec hr hp; fin_cases hr <;> exact ⟨_, rfl⟩)).2.2⟩

/-- C10: every record the engine emits with the present flag carries a
`*card` payload — possibly the nil card of the benign absence race — so the
defensive default arm of the dispatch loop is unreachable on engine
records and `Serve` never returns `ErrUnhandledCardData` on such a run;
a nil card payload is skipped with no handler call and no error. -/
theorem c10_engine_payload_safe (actx : Context) (cycles : List CycleInput)
    (rec : ReaderState) (rest : List ReaderState)
    (hmem : rec ∈ emittedRecords
      (read cycles (initializeReaderState actx)).events)
    (hpres : rec.eventState &&& statePresent ≠ 0) :
    (∃ c, rec.userData = UserData.cardPtr c)
    ∧ (serve actx cycles).2 = none
    ∧ (rec.userData = UserData.cardPtr none →
        dispatch (rec :: rest) = dispatch rest) := by
  refine ⟨read_present_payload cycles (initializeReaderState actx) rec hmem hpres,
    ?_, ?_⟩
  · have hp := read_present_payload cycles (initializeReaderState actx)
    have hd := dispatch_eq_of_payload _ hp
    simp [serve, hd]
  · intro hnil
    simp [dispatch, hpres, hnil]

/-- Witness for C10 at the benign-absence run: the emitted record carries
the nil card and is skipped. -/
theorem c10_engine_payload_safe_witness :
    (∃ c, (⟨"R1", 0, 32, UserData.cardPtr none⟩ : ReaderState).userData
        = UserData.cardPtr c)
    ∧ (serve ctxOne scriptNoCard).2 = none
    ∧ dispatch [⟨"R1", 0, 32, UserData.cardPtr none⟩] = dispatch [] :=
  ⟨(c10_engine_payload_safe ctxOne scriptNoCard
      ⟨"R1", 0, 32, UserData.cardPtr none⟩ [] (by decide) (by decide)).1,
   (c10_engine_payload_safe ctxOne scriptNoCard
      ⟨"R1", 0, 32, UserData.cardPtr none⟩ [] (by decide) (by decide)).2.1,
   (c10_engine_payload_safe ctxOne scriptNoCard
      ⟨"R1", 0, 32, UserData.cardPtr none⟩ [] (by decide) (by decide)).2.2
     rfl⟩

end Acr122u
